import Mathlib

/-!
Verification of the PyInvest simulation and statistics core
(`src/core/calculation.py`, `src/core/events.py`, `src/core/monte_carlo.py`,
`src/core/statistics.py`) against its natural-language specification.

Conventions of the shallow embedding:
* Python floats are modelled as rationals (`ℚ`).
* The only transcendental step of the core, the annual-to-monthly rate
  conversion `m = (1 + r/100)^(1/12) - 1`, is abstracted: functions that
  consume a monthly rate take it (or the growth factor `1 + m`) as an
  explicit argument, and functions that convert internally take the
  conversion map `rateToG : ℚ → ℚ` (standing for `r ↦ (1+r/100)^(1/12)`)
  as a parameter.
* NumPy randomness is modelled by an explicit noise stream `ℕ → ℚ`
  holding the raw draws; `np.clip` applied to the draws is embedded
  literally.
* Python `None` becomes `Option.none`; a raised `ValueError` becomes
  `Except.error`.
-/

namespace PyInvest

/-- Absolute value on ℚ written as a plain function (mirrors `np.abs`). -/
def absQ (x : ℚ) : ℚ := |x|

/-- `np.clip(x, lo, hi)`. -/
def clip (x lo hi : ℚ) : ℚ := min (max x lo) hi

/-- `np.mean` of a 1-d array (callers guard the empty case). -/
def meanQ (xs : List ℚ) : ℚ := xs.sum / (xs.length : ℚ)

/-- Ascending sort of a 1-d array, `np.sort`. -/
def sortQ (xs : List ℚ) : List ℚ := xs.mergeSort (fun a b => decide (a ≤ b))

/--
`np.percentile(xs, q)` with the default linear-interpolation method:
virtual rank `h = (n-1)·q/100`, result `s[⌊h⌋] + (h-⌊h⌋)·(s[⌊h⌋+1] - s[⌊h⌋])`
on the sorted data. Empty input is guarded by every caller.
-/
def percentileLinear (xs : List ℚ) (q : ℚ) : ℚ :=
  let s := sortQ xs
  let n := s.length
  if n = 0 then 0
  else
    let h : ℚ := ((n : ℚ) - 1) * q / 100
    let i : ℕ := h.floor.toNat
    let lo := s.getD i 0
    let hi := s.getD (i + 1) lo
    lo + (h - (i : ℚ)) * (hi - lo)

/--
`np.argmin(np.abs(xs - t))`: first index of the element of `xs`
closest to `t` (ties resolved to the earliest index, as in NumPy).
-/
def argminAbs (t : ℚ) : List ℚ → ℕ
  | [] => 0
  | x :: xs =>
    match xs with
    | [] => 0
    | _ :: _ =>
      let j := argminAbs t xs
      if absQ (x - t) ≤ absQ (xs.getD j 0 - t) then 0 else j + 1

/-! ## The compound-interest scan (`calculate_deterministic`, lines 333–365,
and the inner loops of `_calculate_single_scenario`) -/

/--
The month-by-month balance scan of `calculate_deterministic`
(`src/core/calculation.py`): `balance[0] = initial`,
`balance[t] = balance[t-1]*(1+m) + contribution`, where `m` is the monthly
rate (obtained in the source from the annual rate by the 12th-root
conversion, passed here directly).
-/
def scanBalance (initial contribution m : ℚ) : ℕ → ℚ
  | 0 => initial
  | t + 1 => scanBalance initial contribution m t * (1 + m) + contribution

/--
Modelled from the spec: the closed-form annuity path
`balance[t] = C(1+m)^t + a((1+m)^t - 1)/m`, with the `m ≈ 0` guard falling
back to `C + a·t` (spec §4.2).
-/
def closedFormAnnuity (C a m : ℚ) (t : ℕ) : ℚ :=
  if m = 0 then C + a * t
  else C * (1 + m) ^ t + a * ((1 + m) ^ t - 1) / m

/-- C5 -- When no events are present, the month-by-month scan
(`balance[0] = initial;  balance[t] = balance[t-1]*(1+m) + contribution`)
agrees with the closed-form annuity formula
`C*(1+m)^t + a*((1+m)^t - 1)/m` (with the `m ≈ 0` guard `C + a*t`) for
every initial capital, contribution, monthly rate and month, in
particular at the spec's round-trip instance (t = 12). -/
theorem scan_eq_closedFormAnnuity (C a m : ℚ) (t : ℕ) :
    scanBalance C a m t = closedFormAnnuity C a m t := by
  induction t with
  | zero =>
    by_cases hm : m = 0 <;>
      simp [scanBalance, closedFormAnnuity, hm]
  | succ t ih =>
    by_cases hm : m = 0
    · subst hm
      simp [scanBalance, closedFormAnnuity] at ih ⊢
      rw [ih]
      ring
    · simp only [scanBalance, closedFormAnnuity, hm, if_false] at ih ⊢
      rw [ih]
      field_simp
      ring

/-! ## `ParameterRange` of `src/core/monte_carlo.py` (lines 20–130) -/

/-- `ParameterRange` dataclass of `src/core/monte_carlo.py`. -/
structure ParameterRange where
  min_value : Option ℚ := none
  deterministic : Option ℚ := none
  max_value : Option ℚ := none
deriving DecidableEq, Repr

namespace ParameterRange

/--
`ParameterRange.validate` of `src/core/monte_carlo.py` (lines 34–81):
returns `(is_valid, error_message)`, following the source's sequence of
early returns (cases 1–4).
-/
def validate (pr : ParameterRange) : Bool × String :=
  match pr.min_value, pr.deterministic, pr.max_value with
  | none, none, none =>
    (false, "Pelo menos um valor deve ser preenchido.")
  | none, some _, none => (true, "")
  | some _, some _, none =>
    (false, "Se informar Mínimo e Determinístico, deve informar também o Máximo.")
  | none, some _, some _ =>
    (false, "Se informar Máximo e Determinístico, deve informar também o Mínimo.")
  | some _, none, none =>
    (false, "Não pode informar apenas o Mínimo. Informe também o Máximo ou use o Determinístico.")
  | none, none, some _ =>
    (false, "Não pode informar apenas o Máximo. Informe também o Mínimo ou use o Determinístico.")
  | some mn, od, some mx =>
    if mn > mx then
      (false, "Mínimo (" ++ toString mn ++ ") não pode ser maior que Máximo (" ++ toString mx ++ ").")
    else if mn = mx then
      (false, "Mínimo e Máximo não podem ser iguais. Use o valor Determinístico.")
    else
      match od with
      | some d =>
        if d < mn then
          (false, "Determinístico (" ++ toString d ++ ") está abaixo do Mínimo (" ++ toString mn ++ ").")
        else if d > mx then
          (false, "Determinístico (" ++ toString d ++ ") está acima do Máximo (" ++ toString mx ++ ").")
        else (true, "")
      | none => (true, "")

/-- `ParameterRange.is_probabilistic` (monte_carlo.py lines 83–85). -/
def is_probabilistic (pr : ParameterRange) : Bool :=
  pr.min_value.isSome && pr.max_value.isSome

/--
`ParameterRange.get_deterministic_value` (monte_carlo.py lines 87–97);
`none` models the `ValueError` raised when no value is available.
-/
def get_deterministic_value (pr : ParameterRange) : Option ℚ :=
  match pr.deterministic with
  | some d => some d
  | none =>
    match pr.min_value, pr.max_value with
    | some mn, some mx => some ((mn + mx) / 2)
    | _, _ => none

/--
`ParameterRange.sample(n, NORMAL)` (monte_carlo.py lines 99–120): for a
non-probabilistic parameter, `n` copies of the deterministic value; for a
probabilistic one, the raw normal draws (the `noise` stream) clipped to
`[min, max]`. The default `NORMAL` branch is the only one the engine uses.
-/
def sample (pr : ParameterRange) (noise : ℕ → ℚ) (n : ℕ) : List ℚ :=
  if pr.is_probabilistic then
    match pr.min_value, pr.max_value with
    | some mn, some mx => (List.range n).map (fun i => clip (noise i) mn mx)
    | _, _ => []
  else
    (List.range n).map (fun _ => (pr.get_deterministic_value).getD 0)

end ParameterRange

/-! ## `MonteCarloInput` (monte_carlo.py lines 133–184) and engine
construction (lines 275–289) -/

/-- `MonteCarloInput` dataclass (monte_carlo.py lines 133–143); the events
manager is carried as the already-consolidated structures it supplies. -/
structure MonteCarloInput where
  capital_inicial : ParameterRange
  aporte_mensal : ParameterRange
  rentabilidade_anual : ParameterRange
  periodo_anos : ℤ
  meta : ℚ := 0
  n_simulations : ℤ := 5000

namespace MonteCarloInput

/--
`MonteCarloInput.validate_all` (monte_carlo.py lines 145–176): collects
the error messages of every violated constraint, in source order, and
returns `(errors = [], errors)`.
-/
def validate_all (inp : MonteCarloInput) : Bool × List String :=
  let paramErrs :=
    [("Capital Inicial", inp.capital_inicial),
     ("Aporte Mensal", inp.aporte_mensal),
     ("Rentabilidade Anual", inp.rentabilidade_anual)].foldr
      (fun (p : String × ParameterRange) acc =>
        (if (p.2.validate).1 then [] else [p.1 ++ ": " ++ (p.2.validate).2]) ++ acc) []
  let errors := paramErrs
    ++ (if inp.periodo_anos ≤ 0 then ["Período: deve ser maior que zero."] else [])
    ++ (if inp.n_simulations < 100 then ["Número de simulações: deve ser pelo menos 100."] else [])
    ++ (if inp.n_simulations > 100000 then ["Número de simulações: máximo permitido é 100.000."] else [])
  (errors.length = 0, errors)

/-- `MonteCarloInput.has_probabilistic_params` (monte_carlo.py lines 178–184). -/
def has_probabilistic_params (inp : MonteCarloInput) : Bool :=
  inp.capital_inicial.is_probabilistic ||
  inp.aporte_mensal.is_probabilistic ||
  inp.rentabilidade_anual.is_probabilistic

end MonteCarloInput

/-- The validated engine: `MonteCarloEngine.__init__` stores the inputs
after `_validate` passes (monte_carlo.py lines 281–283). -/
structure MonteCarloEngine where
  inputs : MonteCarloInput

/--
`MonteCarloEngine.__init__` / `_validate` (monte_carlo.py lines 281–289):
construction raises `ValueError("\n".join(errors))` when any constraint is
violated, and otherwise performs no work beyond storing the inputs. The
error payload is modelled as the list of message lines (the source joins
them with a newline).
-/
def mkMonteCarloEngine (inp : MonteCarloInput) : Except (List String) MonteCarloEngine :=
  let v := inp.validate_all
  if v.1 then Except.ok ⟨inp⟩ else Except.error v.2

/-! ## Extraordinary events (`src/core/events.py`)

A consolidated monthly-events map (`get_monthly_consolidated`) is embedded
as a total function `ev : ℕ → ℚ × ℚ` giving `(deposits, withdrawals)` for
each relative month, `(0, 0)` for months absent from the Python dict
(adding a zero deposit and skipping the `withdrawals > 0` branch is
observationally the same as the `m in monthly_events` guard). -/

/-- `InsolvencyEvent` dataclass (`src/core/events.py` lines 264–271). -/
structure InsolvencyEvent where
  month : ℕ
  year_relative : ℚ
  balance_before : ℚ
  withdrawal_attempted : ℚ
deriving DecidableEq, Repr

/-- Loop state of `apply_events_to_simulation` (`src/core/events.py`
lines 331–393): current balance, recorded insolvencies, `is_insolvent`. -/
structure SimEvState where
  bal : ℚ
  insolvencies : List InsolvencyEvent
  is_insolvent : Bool
deriving DecidableEq, Repr

/--
One iteration of the month loop of `apply_events_to_simulation`
(events.py lines 363–391) at month `m`: skip when already insolvent,
otherwise apply interest and regular contribution, add the month's
consolidated deposits, then check the withdrawal against the balance,
recording insolvency and zeroing on a shortfall.
-/
def simEvStep (mrate contribution : ℚ) (ev : ℕ → ℚ × ℚ) (m : ℕ)
    (s : SimEvState) : SimEvState :=
  if s.is_insolvent then { s with bal := 0 }
  else
    let b := s.bal * (1 + mrate) + contribution + (ev m).1
    let wd := (ev m).2
    if 0 < wd then
      if b < wd then
        { bal := 0,
          insolvencies := s.insolvencies ++ [⟨m, (m : ℚ) / 12, b, wd⟩],
          is_insolvent := true }
      else { s with bal := b - wd }
    else { s with bal := b }

/-- State of `apply_events_to_simulation` after processing months
`1, …, t`; month 0 holds the initial balance. -/
def simEvState (initial mrate contribution : ℚ) (ev : ℕ → ℚ × ℚ) : ℕ → SimEvState
  | 0 => ⟨initial, [], false⟩
  | t + 1 => simEvStep mrate contribution ev (t + 1)
      (simEvState initial mrate contribution ev t)

/--
`apply_events_to_simulation` (`src/core/events.py` lines 331–393):
returns the month-indexed balances (length `months + 1`) and the list of
recorded insolvency events.
-/
def apply_events_to_simulation (initial contribution mrate : ℚ)
    (ev : ℕ → ℚ × ℚ) (months : ℕ) : List ℚ × List InsolvencyEvent :=
  ((List.range (months + 1)).map
      (fun t => (simEvState initial mrate contribution ev t).bal),
   (simEvState initial mrate contribution ev months).insolvencies)

/-! ## `MonteCarloEngine._calculate_with_events`
(`src/core/monte_carlo.py` lines 531–580) -/

/-- Loop state of `_calculate_with_events`: current balance and the
first recorded insolvency month (if any). -/
structure CalcEvState where
  bal : ℚ
  insolvency_month : Option ℕ
deriving DecidableEq, Repr

/--
One iteration of the month loop of `_calculate_with_events`
(monte_carlo.py lines 553–578) at month `m`: interest, regular
contribution, the month's deposits; a shortfall zeroes this month's
balance and records `m` only if no month was recorded yet; finally the
balance is clamped at 0 (recording `m` likewise). There is no
`is_insolvent` flag: later months restart from the zeroed balance.
-/
def calcEvStep (mrate contribution : ℚ) (ev : ℕ → ℚ × ℚ) (m : ℕ)
    (s : CalcEvState) : CalcEvState :=
  let b := s.bal * (1 + mrate) + contribution + (ev m).1
  let wd := (ev m).2
  let s1 : CalcEvState :=
    if 0 < wd then
      if b < wd then
        ⟨0, if s.insolvency_month = none then some m else s.insolvency_month⟩
      else ⟨b - wd, s.insolvency_month⟩
    else ⟨b, s.insolvency_month⟩
  if s1.bal < 0 then
    ⟨0, if s1.insolvency_month = none then some m else s1.insolvency_month⟩
  else s1

/-- State of `_calculate_with_events` after processing months `1, …, t`. -/
def calcEvState (initial mrate contribution : ℚ) (ev : ℕ → ℚ × ℚ) : ℕ → CalcEvState
  | 0 => ⟨initial, none⟩
  | t + 1 => calcEvStep mrate contribution ev (t + 1)
      (calcEvState initial mrate contribution ev t)

/--
`MonteCarloEngine._calculate_with_events` (monte_carlo.py lines 531–580):
month-indexed balances and the recorded insolvency month. The monthly
rate `mrate` stands for the source's `(1 + annual_rate/100)^(1/12) - 1`.
-/
def calculate_with_events (initial contribution mrate : ℚ)
    (ev : ℕ → ℚ × ℚ) (months : ℕ) : List ℚ × Option ℕ :=
  ((List.range (months + 1)).map
      (fun t => (calcEvState initial mrate contribution ev t).bal),
   (calcEvState initial mrate contribution ev months).insolvency_month)

/-! ## `MonteCarloEngine._calculate_monte_carlo_with_events`
(`src/core/monte_carlo.py` lines 582–630) -/

/--
One scenario row of `_calculate_monte_carlo_with_events`: the same
recurrence with the shared event map, with every month `m ≥ 1` clamped at
0 by `np.maximum(0, ...)` after the unconditional withdrawal subtraction.
-/
def mcRowBal (initial contribution mrate : ℚ) (ev : ℕ → ℚ × ℚ) : ℕ → ℚ
  | 0 => initial
  | m + 1 =>
    max 0 (mcRowBal initial contribution mrate ev m * (1 + mrate)
      + contribution + (ev (m + 1)).1 - (ev (m + 1)).2)

/--
`MonteCarloEngine._calculate_monte_carlo_with_events` (monte_carlo.py
lines 582–630): samples the three parameters (raw draws supplied by the
noise streams), converts annual rates to monthly via `rateToM`
(abstracting the 12th-root conversion of line 608), runs every scenario
row against the shared nominal events, and returns
`(all_balances, initials, monthlies, rates)`. The sampled arrays enter
the recurrence exactly as sampled — no non-negativity clamp is applied
to them.
-/
def calculate_monte_carlo_with_events (inp : MonteCarloInput)
    (noiseC noiseA noiseR : ℕ → ℚ) (rateToM : ℚ → ℚ)
    (ev : ℕ → ℚ × ℚ) :
    List (List ℚ) × List ℚ × List ℚ × List ℚ :=
  let n := inp.n_simulations.toNat
  let total_months := (inp.periodo_anos.toNat) * 12
  let initials := inp.capital_inicial.sample noiseC n
  let monthlies := inp.aporte_mensal.sample noiseA n
  let rates := inp.rentabilidade_anual.sample noiseR n
  let rows := (List.range n).map (fun i =>
    (List.range (total_months + 1)).map
      (mcRowBal (initials.getD i 0) (monthlies.getD i 0)
        (rateToM (rates.getD i 0)) ev))
  (rows, initials, monthlies, rates)

/-! ## `extract_representative_scenarios`
(`src/core/monte_carlo.py` lines 633–697) -/

/-- `RepresentativeScenario` dataclass (monte_carlo.py lines 187–200). -/
structure RepresentativeScenario where
  scenario_name : String
  percentile : String
  capital_inicial : ℚ
  aporte_mensal : ℚ
  rentabilidade_anual : ℚ
  saldo_final : ℚ
  scenario_type : String
deriving DecidableEq, Repr

/-- The `scenarios_config` table (monte_carlo.py lines 655–661). -/
def scenariosConfig : List (String × String × ℚ × String) :=
  [("P5 (Pessimista)", "P5", 5, "Worst Case"),
   ("P25 (Conservador)", "P25", 25, "Conservador"),
   ("P50 (Mediana)", "P50", 50, "Típico"),
   ("P75 (Bom)", "P75", 75, "Otimista"),
   ("P95 (Otimista)", "P95", 95, "Best Case")]

/--
`extract_representative_scenarios` (monte_carlo.py lines 633–697): for
each configured percentile, the percentile value of the final balances is
computed, the first index whose final balance is closest to it is
selected, and that scenario's actual sampled parameters and final balance
are reported; the mean scenario is appended the same way.
-/
def extract_representative_scenarios (final_balances capitals monthlies rates : List ℚ) :
    List RepresentativeScenario :=
  (scenariosConfig.map (fun c =>
    let target_balance := percentileLinear final_balances c.2.2.1
    let idx := argminAbs target_balance final_balances
    { scenario_name := c.1
      percentile := c.2.1
      capital_inicial := capitals.getD idx 0
      aporte_mensal := monthlies.getD idx 0
      rentabilidade_anual := rates.getD idx 0
      saldo_final := final_balances.getD idx 0
      scenario_type := c.2.2.2 }))
  ++
  (let mean_balance := meanQ final_balances
   let idx_mean := argminAbs mean_balance final_balances
   [{ scenario_name := "Média"
      percentile := "MÉDIA"
      capital_inicial := capitals.getD idx_mean 0
      aporte_mensal := monthlies.getD idx_mean 0
      rentabilidade_anual := rates.getD idx_mean 0
      saldo_final := final_balances.getD idx_mean 0
      scenario_type := "Valor Esperado" }])

/-! ## `src/core/calculation.py`: its own `ParameterRange` and the
Monte Carlo sampling of `run_monte_carlo_simulation` -/

namespace Calculation

/-- `ParameterRange` dataclass of `src/core/calculation.py` (lines 17–77);
an independent revision of the one in monte_carlo.py. -/
structure ParameterRange where
  min_value : Option ℚ := none
  deterministic : Option ℚ := none
  max_value : Option ℚ := none
deriving DecidableEq, Repr

namespace ParameterRange

/-- `is_range_defined` (calculation.py lines 24–26). -/
def is_range_defined (pr : ParameterRange) : Bool :=
  pr.min_value.isSome && pr.max_value.isSome

/-- `get_deterministic_value` (calculation.py lines 28–34); this revision
returns `0.0` instead of raising when nothing is set. -/
def get_deterministic_value (pr : ParameterRange) : ℚ :=
  match pr.deterministic with
  | some d => d
  | none =>
    match pr.min_value, pr.max_value with
    | some mn, some mx => (mn + mx) / 2
    | _, _ => 0

/-- `get_mean` (calculation.py lines 36–40). -/
def get_mean (pr : ParameterRange) : ℚ :=
  match pr.min_value, pr.max_value with
  | some mn, some mx => (mn + mx) / 2
  | _, _ => pr.get_deterministic_value

/-- `get_std` (calculation.py lines 42–46). -/
def get_std (pr : ParameterRange) : ℚ :=
  match pr.min_value, pr.max_value with
  | some mn, some mx => (mx - mn) / 6
  | _, _ => 0

/--
`ParameterRange.validate` of `src/core/calculation.py` (lines 48–77):
the looser revision (no `min == max` rejection), following the source's
sequence of early returns.
-/
def validate (pr : ParameterRange) : Bool × String :=
  if pr.min_value = none ∧ pr.deterministic = none ∧ pr.max_value = none then
    (false, "Pelo menos um valor deve ser preenchido.")
  else if pr.deterministic.isSome ∧ pr.min_value = none ∧ pr.max_value = none then
    (true, "")
  else if pr.min_value.isSome ≠ pr.max_value.isSome then
    (false, "Se Min ou Max for preenchido, ambos devem ser informados.")
  else
    match pr.min_value, pr.max_value with
    | some mn, some mx =>
      if mn > mx then
        (false, "Valor Mínimo não pode ser maior que Máximo.")
      else
        match pr.deterministic with
        | some d =>
          if d < mn ∨ d > mx then
            (false, "Valor Determinístico deve estar entre Min e Max.")
          else (true, "")
        | none => (true, "")
    | _, _ => (true, "")

/--
The `sample_parameter` closure of `run_monte_carlo_simulation`
(calculation.py lines 270–281): truncated-normal draws (raw draws clipped
to `[min, max]`) when a range is defined, else `n` copies of the
deterministic value.
-/
def sample_parameter (pr : ParameterRange) (noise : ℕ → ℚ) (n : ℕ) : List ℚ :=
  if pr.is_range_defined then
    match pr.min_value, pr.max_value with
    | some mn, some mx => (List.range n).map (fun i => clip (noise i) mn mx)
    | _, _ => []
  else
    (List.range n).map (fun _ => pr.get_deterministic_value)

end ParameterRange

/-- `SimulationParameters` dataclass (calculation.py lines 80–122). -/
structure SimulationParameters where
  initial_amount : ParameterRange
  monthly_contribution : ParameterRange
  annual_rate : ParameterRange
  years : ℤ
  goal_amount : ℚ := 0
  num_simulations : ℤ := 5000

/--
The vectorized recurrence `calculate_compound_interest_vectorized`
(calculation.py lines 211–246), one scenario row: `balances[:, 0] =
initial`, `balances[:, m] = balances[:, m-1]*(1+monthly_rate) +
contribution`. `mrate` stands for `(1 + annual_rate/100)^(1/12) - 1`.
-/
def cciRowBal (initial contribution mrate : ℚ) : ℕ → ℚ
  | 0 => initial
  | m + 1 => cciRowBal initial contribution mrate m * (1 + mrate) + contribution

/--
The sampling-and-clamping stage of `run_monte_carlo_simulation`
(calculation.py lines 283–291): the three sampled arrays, each clamped
non-negative by `np.maximum(·, 0)` before entering the recurrence.
-/
def sampledMCParams (params : SimulationParameters)
    (noiseC noiseA noiseR : ℕ → ℚ) :
    List ℚ × List ℚ × List ℚ :=
  let n := params.num_simulations.toNat
  let initial_samples := params.initial_amount.sample_parameter noiseC n
  let monthly_samples := params.monthly_contribution.sample_parameter noiseA n
  let rate_samples := params.annual_rate.sample_parameter noiseR n
  (initial_samples.map (fun x => max x 0),
   monthly_samples.map (fun x => max x 0),
   rate_samples.map (fun x => max x 0))

/--
The balance matrix of `run_monte_carlo_simulation` (calculation.py lines
293–299): the clamped samples fed to
`calculate_compound_interest_vectorized`.
-/
def runMonteCarloBalances (params : SimulationParameters)
    (noiseC noiseA noiseR : ℕ → ℚ) (rateToM : ℚ → ℚ) :
    List (List ℚ) :=
  let n := params.num_simulations.toNat
  let total_months := params.years.toNat * 12
  let s := sampledMCParams params noiseC noiseA noiseR
  (List.range n).map (fun i =>
    (List.range (total_months + 1)).map
      (cciRowBal (s.1.getD i 0) (s.2.1.getD i 0) (rateToM (s.2.2.getD i 0))))

end Calculation

/-! ## `src/core/statistics.py`: percentiles, risk probabilities and the
implicit-rate bisection -/

/-- First index of the maximum of a list of counts (`np.argmax`). -/
def argmaxCount : List ℕ → ℕ
  | [] => 0
  | x :: xs =>
    match xs with
    | [] => 0
    | _ :: _ =>
      let j := argmaxCount xs
      if xs.getD j 0 ≤ x then 0 else j + 1

/-- Minimum of a 1-d array (`np.min`); callers guard the empty case. -/
def minListQ : List ℚ → ℚ
  | [] => 0
  | x :: xs => xs.foldl min x

/-- Maximum of a 1-d array (`np.max`); callers guard the empty case. -/
def maxListQ : List ℚ → ℚ
  | [] => 0
  | x :: xs => xs.foldl max x

/--
Modal-bin midpoint of `np.histogram(xs, bins)`: `bins` equal-width bins
over `[min, max]` (numpy widens a degenerate range by ±0.5), the last bin
closed, ties on the count resolved to the first bin.
-/
def histogramMode (xs : List ℚ) (bins : ℕ) : ℚ :=
  let mn := minListQ xs
  let mx := maxListQ xs
  let lo := if mn = mx then mn - 1/2 else mn
  let hi := if mn = mx then mx + 1/2 else mx
  let edge : ℕ → ℚ := fun i => lo + (hi - lo) * i / bins
  let counts := (List.range bins).map (fun i =>
    (xs.filter (fun x =>
      decide (edge i ≤ x) &&
        (if i + 1 = bins then decide (x ≤ edge (i + 1))
         else decide (x < edge (i + 1))))).length)
  let idx := argmaxCount counts
  (edge idx + edge (idx + 1)) / 2

/-- `PercentileStats` (`src/core/statistics.py` lines 432–447), restricted
to the fields computed by exact arithmetic; `std_dev` and
`coef_variation` involve the float square root and are omitted, `mode`
and the moments are kept. -/
structure PercentileStats where
  p5 : ℚ := 0
  p10 : ℚ := 0
  p25 : ℚ := 0
  p50 : ℚ := 0
  p75 : ℚ := 0
  p90 : ℚ := 0
  p95 : ℚ := 0
  mean : ℚ := 0
  mode : ℚ := 0
  variance : ℚ := 0
  min_value : ℚ := 0
  max_value : ℚ := 0
deriving DecidableEq, Repr

/--
`calculate_percentiles` (`src/core/statistics.py` lines 474–532): sorts
the final balances and reads the fixed ranks `sorted[int(p·n)]`
(`int(0.05·n) = ⌊5n/100⌋` and so on — float rounding never crosses an
integer here since the exact products sit at multiples of 1/20), plus the
exact-arithmetic summary statistics and the 30-bin histogram mode.
-/
def calculate_percentiles (final_balances : List ℚ) : PercentileStats :=
  let n := final_balances.length
  if n = 0 then {} else
  let sorted_balances := sortQ final_balances
  let mean := meanQ final_balances
  { p5 := sorted_balances.getD (5 * n / 100) 0
    p10 := sorted_balances.getD (10 * n / 100) 0
    p25 := sorted_balances.getD (25 * n / 100) 0
    p50 := sorted_balances.getD (50 * n / 100) 0
    p75 := sorted_balances.getD (75 * n / 100) 0
    p90 := sorted_balances.getD (90 * n / 100) 0
    p95 := sorted_balances.getD (95 * n / 100) 0
    mean := mean
    mode := histogramMode final_balances 30
    variance := meanQ (final_balances.map (fun x => (x - mean) ^ 2))
    min_value := minListQ final_balances
    max_value := maxListQ final_balances }

/--
The success/ruin-probability stage of `calculate_risk_metrics`
(`src/core/statistics.py` lines 658–681): success counts final balances
`≥ meta`, ruin counts final balances strictly `<` the `capital_inicial`
argument; both are scaled to percent. The remaining fields of
`RiskMetrics` (VaR/CVaR/Sharpe/volatility) involve float square roots and
powers and are not needed by the claims.
-/
def riskProbabilities (final_balances : List ℚ) (meta capital_inicial : ℚ) :
    ℚ × ℚ :=
  let n := final_balances.length
  if n = 0 then (0, 0) else
  let success_count := (final_balances.filter (fun x => decide (meta ≤ x))).length
  let ruin_count := (final_balances.filter (fun x => decide (x < capital_inicial))).length
  (((success_count : ℚ) / n) * 100, ((ruin_count : ℚ) / n) * 100)

/-- The month loop of the `simulate_deterministic` closure: `n` steps of
`balance = balance * g + aporte` from the given balance. -/
def annuityIter (g a : ℚ) : ℕ → ℚ → ℚ
  | 0, bal => bal
  | n + 1, bal => annuityIter g a n bal * g + a

/--
The `simulate_deterministic` closure of `find_implicit_rate`
(statistics.py lines 561–569): the pure-annuity recurrence run for
`periodo_anos * 12` months; `gf` stands for the annual-to-monthly growth
conversion `rate ↦ (1 + rate/100)^(1/12)` (the source multiplies by that
factor each month).
-/
def simulate_deterministic (gf : ℚ → ℚ) (capital_inicial aporte_mensal : ℚ)
    (periodo_anos : ℕ) (rate_annual : ℚ) : ℚ :=
  annuityIter (gf rate_annual) aporte_mensal (periodo_anos * 12) capital_inicial

/--
The bisection loop of `find_implicit_rate` (statistics.py lines 571–584),
generic in the simulated-balance function `sim`: each iteration takes the
bracket midpoint, returns it when within tolerance of the target, and
otherwise halves the bracket; with the iteration budget exhausted the
final midpoint is returned.
-/
def bisectGo (sim : ℚ → ℚ) (target tol : ℚ) : ℕ → ℚ → ℚ → ℚ
  | 0, r_min, r_max => (r_min + r_max) / 2
  | k + 1, r_min, r_max =>
    let r_mid := (r_min + r_max) / 2
    if absQ (sim r_mid - target) < tol then r_mid
    else if sim r_mid < target then bisectGo sim target tol k r_mid r_max
    else bisectGo sim target tol k r_min r_mid

/-- The bracket evolution of the same loop when no early return fires:
after `k` iterations of pure halving. -/
def bisectBracket (sim : ℚ → ℚ) (target : ℚ) : ℕ → ℚ × ℚ → ℚ × ℚ
  | 0, br => br
  | k + 1, br =>
    let r_mid := (br.1 + br.2) / 2
    if sim r_mid < target then bisectBracket sim target k (r_mid, br.2)
    else bisectBracket sim target k (br.1, r_mid)

/--
`find_implicit_rate` (`src/core/statistics.py` lines 535–584): bisection
over the annual rate in `[-30, 50]` against `sim` (in the source, the
`simulate_deterministic` closure), with tolerance `tol` and `max_iter`
iterations; never fails — on exhausting the budget the midpoint of the
final bracket is returned.
-/
def find_implicit_rate (sim : ℚ → ℚ) (target_balance tol : ℚ)
    (max_iterations : ℕ) : ℚ :=
  bisectGo sim target_balance tol max_iterations (-30) 50

/-! ## `MonteCarloEngine.run` (`src/core/monte_carlo.py` lines 347–529) -/

/-- `YearlyProjectionMC` dataclass (monte_carlo.py lines 203–219). -/
structure YearlyProjectionMC where
  year : ℕ
  total_invested : ℚ
  balance_deterministic : ℚ
  balance_mean : ℚ
  balance_median : ℚ
  balance_mode : ℚ
  balance_min : ℚ
  balance_max : ℚ
  balance_p5 : ℚ
  balance_p10 : ℚ
  balance_p90 : ℚ
  balance_p95 : ℚ
  extra_deposits : ℚ := 0
  withdrawals : ℚ := 0
deriving DecidableEq, Repr

/-- `MonteCarloResult` dataclass (monte_carlo.py lines 222–272); the
`params_used` echo dict and the `yearly_events` pass-through are
presentation metadata and are not carried. -/
structure MonteCarloResult where
  months : List ℕ
  balances_deterministic : List ℚ
  balances_mean : List ℚ
  balances_min : List ℚ
  balances_max : List ℚ
  balances_p10 : List ℚ
  balances_p90 : List ℚ
  balances_p5 : List ℚ
  balances_p95 : List ℚ
  total_invested : ℚ
  total_interest_det : ℚ
  final_balance_det : ℚ
  final_balance_mean : ℚ
  final_balance_min : ℚ
  final_balance_max : ℚ
  yearly_projection : List YearlyProjectionMC := []
  n_simulations : ℤ := 5000
  has_monte_carlo : Bool := false
  insolvency_month : Option ℕ := none
  insolvency_year : Option ℚ := none
  representative_scenarios : List RepresentativeScenario := []
  sampled_capitals : Option (List ℚ) := none
  sampled_monthlies : Option (List ℚ) := none
  sampled_rates : Option (List ℚ) := none
  sampled_final_balances : Option (List ℚ) := none

/-- Column-wise aggregation over the scenario axis of an
`n × (months+1)` matrix (`axis=0` reductions of the source). -/
def colAgg (f : List ℚ → ℚ) (rows : List (List ℚ)) (cols : ℕ) : List ℚ :=
  (List.range cols).map (fun j => f (rows.map (fun r => r.getD j 0)))

/--
`EventsManager.get_monthly_consolidated` (`src/core/events.py` lines
111–139) as the lookup function it supplies to the engine: events are
`(year, month, deposit, withdrawal)` rows, keyed by
`(year - startYear)*12 + (month - startMonth)`, with events outside
`[0, months)` ignored and amounts summed per relative month.
-/
def get_monthly_consolidated (events : List (ℤ × ℤ × ℚ × ℚ))
    (startYear startMonth : ℤ) (months : ℕ) : ℕ → ℚ × ℚ :=
  fun m =>
    events.foldl (fun acc e =>
      let rel := (e.1 - startYear) * 12 + (e.2.1 - startMonth)
      if rel = m ∧ 0 ≤ rel ∧ rel < months then
        (acc.1 + e.2.2.1, acc.2 + e.2.2.2)
      else acc) (0, 0)

/--
`MonteCarloEngine.run` (monte_carlo.py lines 347–529). Inputs beyond the
validated `MonteCarloInput`: the consolidated monthly events (as the
finite dict items `evList` together with total per-year summaries
`yearly_ev`, both produced by the events manager), the three noise
streams for sampling, and `rateToM` standing for the annual-to-monthly
conversion `r ↦ (1 + r/100)^(1/12) - 1`. The deterministic values fall
back to `0` where the source would have raised during validation.
-/
def engineRun (inp : MonteCarloInput) (evList : List (ℕ × ℚ × ℚ))
    (yearly_ev : ℕ → ℚ × ℚ) (noiseC noiseA noiseR : ℕ → ℚ)
    (rateToM : ℚ → ℚ) : MonteCarloResult :=
  let years := inp.periodo_anos.toNat
  let total_months := years * 12
  let det_initial := (inp.capital_inicial.get_deterministic_value).getD 0
  let det_monthly := (inp.aporte_mensal.get_deterministic_value).getD 0
  let det_rate := (inp.rentabilidade_anual.get_deterministic_value).getD 0
  let monthly_events : ℕ → ℚ × ℚ := fun m => ((evList.lookup m).getD (0, 0))
  let detPair := calculate_with_events det_initial det_monthly
    (rateToM det_rate) monthly_events total_months
  let balances_det := detPair.1
  let insolvency_month := detPair.2
  let total_regular := det_initial + det_monthly * total_months
  let total_extra_deposits := (evList.map (fun e => e.2.1)).sum
  let total_withdrawals := (evList.map (fun e => e.2.2)).sum
  let total_invested := total_regular + total_extra_deposits
  let final_balance_det := balances_det.getD total_months 0
  let total_interest_det := final_balance_det - total_invested + total_withdrawals
  let months := List.range (total_months + 1)
  let has_mc := inp.has_probabilistic_params
  let mc := calculate_monte_carlo_with_events inp noiseC noiseA noiseR rateToM
    monthly_events
  let all_balances := mc.1
  let sampled_final_balances := all_balances.map (fun r => r.getD total_months 0)
  let cols := total_months + 1
  let series :=
    if has_mc then
      (colAgg meanQ all_balances cols,
       colAgg (fun c => percentileLinear c 50) all_balances cols,
       colAgg (fun c => histogramMode c 50) all_balances cols,
       colAgg minListQ all_balances cols,
       colAgg maxListQ all_balances cols,
       colAgg (fun c => percentileLinear c 10) all_balances cols,
       colAgg (fun c => percentileLinear c 90) all_balances cols,
       colAgg (fun c => percentileLinear c 5) all_balances cols,
       colAgg (fun c => percentileLinear c 95) all_balances cols)
    else
      (balances_det, balances_det, balances_det, balances_det, balances_det,
       balances_det, balances_det, balances_det, balances_det)
  let balances_mean := series.1
  let balances_median := series.2.1
  let balances_mode := series.2.2.1
  let balances_min := series.2.2.2.1
  let balances_max := series.2.2.2.2.1
  let balances_p10 := series.2.2.2.2.2.1
  let balances_p90 := series.2.2.2.2.2.2.1
  let balances_p5 := series.2.2.2.2.2.2.2.1
  let balances_p95 := series.2.2.2.2.2.2.2.2
  let final_balance_mean :=
    if has_mc then balances_mean.getD total_months 0 else final_balance_det
  let final_balance_min :=
    if has_mc then balances_min.getD total_months 0 else final_balance_det
  let final_balance_max :=
    if has_mc then balances_max.getD total_months 0 else final_balance_det
  let representative_scenarios :=
    if has_mc then
      extract_representative_scenarios sampled_final_balances mc.2.1 mc.2.2.1 mc.2.2.2
    else []
  let yearly_projection := (List.range (years + 1)).map (fun year =>
    let month_idx : ℕ := year * 12
    let invested := det_initial + det_monthly * (month_idx : ℚ)
      + ((evList.filter (fun e => decide (e.1 < year * 12))).map (fun e => e.2.1)).sum
    { year := year
      total_invested := invested
      balance_deterministic := balances_det.getD month_idx 0
      balance_mean := balances_mean.getD month_idx 0
      balance_median := balances_median.getD month_idx 0
      balance_mode := balances_mode.getD month_idx 0
      balance_min := balances_min.getD month_idx 0
      balance_max := balances_max.getD month_idx 0
      balance_p5 := balances_p5.getD month_idx 0
      balance_p10 := balances_p10.getD month_idx 0
      balance_p90 := balances_p90.getD month_idx 0
      balance_p95 := balances_p95.getD month_idx 0
      extra_deposits := (yearly_ev year).1
      withdrawals := (yearly_ev year).2 : YearlyProjectionMC })
  { months := months
    balances_deterministic := balances_det
    balances_mean := balances_mean
    balances_min := balances_min
    balances_max := balances_max
    balances_p10 := balances_p10
    balances_p90 := balances_p90
    balances_p5 := balances_p5
    balances_p95 := balances_p95
    total_invested := total_invested
    total_interest_det := total_interest_det
    final_balance_det := final_balance_det
    final_balance_mean := final_balance_mean
    final_balance_min := final_balance_min
    final_balance_max := final_balance_max
    yearly_projection := yearly_projection
    n_simulations := inp.n_simulations
    has_monte_carlo := has_mc
    insolvency_month := insolvency_month
    insolvency_year :=
      match insolvency_month with
      | some m => if m ≠ 0 then some ((m : ℚ) / 12) else none
      | none => none
    representative_scenarios := representative_scenarios
    sampled_capitals := if has_mc then some mc.2.1 else none
    sampled_monthlies := if has_mc then some mc.2.2.1 else none
    sampled_rates := if has_mc then some mc.2.2.2 else none
    sampled_final_balances := if has_mc then some sampled_final_balances else none }

/-! ## Helper lemmas -/

/-- `sortQ` really sorts: the output is pairwise `≤`. -/
lemma sortQ_pairwise (xs : List ℚ) : (sortQ xs).Pairwise (· ≤ ·) := by
  have h := @List.sorted_mergeSort ℚ (fun a b : ℚ => decide (a ≤ b))
    (fun a b c hab hbc => by
      simp only [decide_eq_true_eq] at hab hbc ⊢
      exact le_trans hab hbc)
    (fun a b => by
      simp only [Bool.or_eq_true, decide_eq_true_eq]
      exact le_total a b)
    xs
  refine h.imp ?_
  intro a b hab
  simpa using hab

lemma sortQ_length (xs : List ℚ) : (sortQ xs).length = xs.length :=
  List.length_mergeSort xs

/-- Reading a sorted list at non-decreasing in-bounds positions is
monotone. -/
lemma sortQ_getD_mono (xs : List ℚ) {i j : ℕ} (hij : i ≤ j)
    (hj : j < (sortQ xs).length) : (sortQ xs).getD i 0 ≤ (sortQ xs).getD j 0 := by
  have hi : i < (sortQ xs).length := lt_of_le_of_lt hij hj
  rw [List.getD_eq_getElem?_getD, List.getD_eq_getElem?_getD,
    List.getElem?_eq_getElem hi, List.getElem?_eq_getElem hj]
  rcases lt_or_eq_of_le hij with h | h
  · exact (List.pairwise_iff_getElem.mp (sortQ_pairwise xs)) i j hi hj h
  · subst h; simp

/-! ## C6: `ParameterRange.validate` (both revisions) -/

/-- C6 -- For both `ParameterRange.validate` revisions
(`src/core/monte_carlo.py` lines 34–81 and `src/core/calculation.py`
lines 48–77): a range with `min < max` and `deterministic` inside
`[min, max]` validates; a set `deterministic` outside `[min, max]` fails;
nothing set fails; exactly one of `min`/`max` set fails (with or without
`deterministic`); `min > max` fails. -/
theorem parameterRange_validate_spec :
    (∀ mn d mx : ℚ, mn < mx → mn ≤ d → d ≤ mx →
      (ParameterRange.validate ⟨some mn, some d, some mx⟩).1 = true ∧
      (Calculation.ParameterRange.validate ⟨some mn, some d, some mx⟩).1 = true) ∧
    (∀ mn d mx : ℚ, (d < mn ∨ mx < d) →
      (ParameterRange.validate ⟨some mn, some d, some mx⟩).1 = false ∧
      (Calculation.ParameterRange.validate ⟨some mn, some d, some mx⟩).1 = false) ∧
    ((ParameterRange.validate ⟨none, none, none⟩).1 = false ∧
     (Calculation.ParameterRange.validate ⟨none, none, none⟩).1 = false) ∧
    (∀ (mn : ℚ) (d : Option ℚ),
      (ParameterRange.validate ⟨some mn, d, none⟩).1 = false ∧
      (Calculation.ParameterRange.validate ⟨some mn, d, none⟩).1 = false) ∧
    (∀ (mx : ℚ) (d : Option ℚ),
      (ParameterRange.validate ⟨none, d, some mx⟩).1 = false ∧
      (Calculation.ParameterRange.validate ⟨none, d, some mx⟩).1 = false) ∧
    (∀ (mn mx : ℚ) (d : Option ℚ), mx < mn →
      (ParameterRange.validate ⟨some mn, d, some mx⟩).1 = false ∧
      (Calculation.ParameterRange.validate ⟨some mn, d, some mx⟩).1 = false) := by
  refine ⟨?_, ?_, ?_, ?_, ?_, ?_⟩
  · intro mn d mx h1 h2 h3
    constructor
    · simp [ParameterRange.validate, not_lt_of_gt h1, ne_of_lt h1,
        not_lt.mpr h2, not_lt.mpr h3]
    · simp [Calculation.ParameterRange.validate, not_lt_of_gt h1,
        not_lt.mpr h2, not_lt.mpr h3]
  · intro mn d mx h
    constructor
    · by_cases hord : mn > mx
      · simp [ParameterRange.validate, hord]
      · by_cases heq : mn = mx
        · simp [ParameterRange.validate, hord, heq]
        · rcases h with h | h
          · simp [ParameterRange.validate, hord, heq, h]
          · have hd : ¬ d < mn := fun hdmn =>
              absurd (lt_trans h hdmn) (not_lt.mpr (not_lt.mp hord))
            simp [ParameterRange.validate, hord, heq, hd, h]
    · by_cases hord : mn > mx
      · simp [Calculation.ParameterRange.validate, hord]
      · rcases h with h | h <;>
          simp [Calculation.ParameterRange.validate, hord, h]
  · exact ⟨by simp [ParameterRange.validate],
      by simp [Calculation.ParameterRange.validate]⟩
  · intro mn d
    rcases d with _ | d <;>
      exact ⟨by simp [ParameterRange.validate],
        by simp [Calculation.ParameterRange.validate]⟩
  · intro mx d
    rcases d with _ | d <;>
      exact ⟨by simp [ParameterRange.validate],
        by simp [Calculation.ParameterRange.validate]⟩
  · intro mn mx d h
    rcases d with _ | d <;>
      exact ⟨by simp [ParameterRange.validate, h],
        by simp [Calculation.ParameterRange.validate, h]⟩

/-- Witness for C6 at concrete ranges. -/
theorem parameterRange_validate_witness :
    ((ParameterRange.validate ⟨some 1, some 2, some 3⟩).1 = true ∧
     (Calculation.ParameterRange.validate ⟨some 1, some 2, some 3⟩).1 = true) ∧
    ((ParameterRange.validate ⟨some 1, some 5, some 3⟩).1 = false ∧
     (Calculation.ParameterRange.validate ⟨some 1, some 5, some 3⟩).1 = false) ∧
    ((ParameterRange.validate ⟨some 4, some 2, some 3⟩).1 = false ∧
     (Calculation.ParameterRange.validate ⟨some 4, some 2, some 3⟩).1 = false) :=
  ⟨parameterRange_validate_spec.1 1 2 3 (by norm_num) (by norm_num) (by norm_num),
   parameterRange_validate_spec.2.1 1 5 3 (Or.inr (by norm_num)),
   parameterRange_validate_spec.2.2.2.2.2 4 3 (some 2) (by norm_num)⟩

/-! ## C7: `calculate_percentiles` -/

/-- C7 -- For every non-empty final-balance array, `calculate_percentiles`
reads each percentile as the nearest-rank entry `sorted[⌊p·n⌋]` of the
sorted array, and the results are monotone:
`p5 ≤ p10 ≤ p25 ≤ p50 ≤ p75 ≤ p90 ≤ p95`. -/
theorem calculate_percentiles_spec (fb : List ℚ) (h : fb ≠ []) :
    ((calculate_percentiles fb).p5 = (sortQ fb).getD (5 * fb.length / 100) 0 ∧
     (calculate_percentiles fb).p10 = (sortQ fb).getD (10 * fb.length / 100) 0 ∧
     (calculate_percentiles fb).p25 = (sortQ fb).getD (25 * fb.length / 100) 0 ∧
     (calculate_percentiles fb).p50 = (sortQ fb).getD (50 * fb.length / 100) 0 ∧
     (calculate_percentiles fb).p75 = (sortQ fb).getD (75 * fb.length / 100) 0 ∧
     (calculate_percentiles fb).p90 = (sortQ fb).getD (90 * fb.length / 100) 0 ∧
     (calculate_percentiles fb).p95 = (sortQ fb).getD (95 * fb.length / 100) 0) ∧
    ((calculate_percentiles fb).p5 ≤ (calculate_percentiles fb).p10 ∧
     (calculate_percentiles fb).p10 ≤ (calculate_percentiles fb).p25 ∧
     (calculate_percentiles fb).p25 ≤ (calculate_percentiles fb).p50 ∧
     (calculate_percentiles fb).p50 ≤ (calculate_percentiles fb).p75 ∧
     (calculate_percentiles fb).p75 ≤ (calculate_percentiles fb).p90 ∧
     (calculate_percentiles fb).p90 ≤ (calculate_percentiles fb).p95) := by
  have hn : fb.length ≠ 0 := by simpa [List.length_eq_zero] using h
  have hn1 : 1 ≤ fb.length := Nat.pos_of_ne_zero hn
  have hfields :
      (calculate_percentiles fb).p5 = (sortQ fb).getD (5 * fb.length / 100) 0 ∧
      (calculate_percentiles fb).p10 = (sortQ fb).getD (10 * fb.length / 100) 0 ∧
      (calculate_percentiles fb).p25 = (sortQ fb).getD (25 * fb.length / 100) 0 ∧
      (calculate_percentiles fb).p50 = (sortQ fb).getD (50 * fb.length / 100) 0 ∧
      (calculate_percentiles fb).p75 = (sortQ fb).getD (75 * fb.length / 100) 0 ∧
      (calculate_percentiles fb).p90 = (sortQ fb).getD (90 * fb.length / 100) 0 ∧
      (calculate_percentiles fb).p95 = (sortQ fb).getD (95 * fb.length / 100) 0 := by
    simp [calculate_percentiles, hn]
  have hmono : ∀ a b : ℕ, a ≤ b → b * fb.length / 100 < (sortQ fb).length →
      (sortQ fb).getD (a * fb.length / 100) 0 ≤ (sortQ fb).getD (b * fb.length / 100) 0 := by
    intro a b hab hb
    exact sortQ_getD_mono fb (Nat.div_le_div_right (Nat.mul_le_mul_right _ hab)) hb
  have hbound : ∀ b : ℕ, b ≤ 95 → b * fb.length / 100 < (sortQ fb).length := by
    intro b hb
    rw [sortQ_length]
    have : b * fb.length ≤ 95 * fb.length := Nat.mul_le_mul_right _ hb
    have h95 : 95 * fb.length / 100 < fb.length := by
      rw [Nat.div_lt_iff_lt_mul (by norm_num : (0:ℕ) < 100)]
      omega
    exact lt_of_le_of_lt (Nat.div_le_div_right this) h95
  refine ⟨hfields, ?_⟩
  obtain ⟨e5, e10, e25, e50, e75, e90, e95⟩ := hfields
  rw [e5, e10, e25, e50, e75, e90, e95]
  exact ⟨hmono 5 10 (by norm_num) (hbound 10 (by norm_num)),
    hmono 10 25 (by norm_num) (hbound 25 (by norm_num)),
    hmono 25 50 (by norm_num) (hbound 50 (by norm_num)),
    hmono 50 75 (by norm_num) (hbound 75 (by norm_num)),
    hmono 75 90 (by norm_num) (hbound 90 (by norm_num)),
    hmono 90 95 (by norm_num) (hbound 95 (by norm_num))⟩

/-- Witness for C7 on a concrete sample. -/
theorem calculate_percentiles_witness :
    (calculate_percentiles [3, 1, 2]).p5 = (sortQ [3, 1, 2]).getD (5 * 3 / 100) 0 ∧
    (calculate_percentiles [3, 1, 2]).p5 ≤ (calculate_percentiles [3, 1, 2]).p95 := by
  have h := calculate_percentiles_spec [3, 1, 2] (by simp)
  exact ⟨h.1.1,
    le_trans h.2.1 (le_trans h.2.2.1 (le_trans h.2.2.2.1
      (le_trans h.2.2.2.2.1 (le_trans h.2.2.2.2.2.1 h.2.2.2.2.2.2))))⟩

/-! ## C8: success and ruin probabilities of `calculate_risk_metrics` -/

/-- C8 -- For every non-empty final-balance array, `calculate_risk_metrics`
reports a success probability of 100 times the fraction of final balances
`≥ meta`, and a ruin probability of 100 times the fraction strictly below
the `capital_inicial` argument. -/
theorem risk_probabilities_spec (fb : List ℚ) (meta cap : ℚ) (h : fb ≠ []) :
    (riskProbabilities fb meta cap).1 =
      100 * ((fb.countP (fun x => decide (meta ≤ x)) : ℚ) / fb.length) ∧
    (riskProbabilities fb meta cap).2 =
      100 * ((fb.countP (fun x => decide (x < cap)) : ℚ) / fb.length) := by
  have hn : fb.length ≠ 0 := by simpa [List.length_eq_zero] using h
  constructor <;>
    simp [riskProbabilities, hn, List.countP_eq_length_filter, mul_comm]

/-- Witness for C8 on a concrete sample. -/
theorem risk_probabilities_witness :
    (riskProbabilities [1, 2, 3, 4] 3 2).1 =
      100 * (((
        ([1, 2, 3, 4] : List ℚ).countP (fun x => decide ((3:ℚ) ≤ x))) : ℚ) / 4) ∧
    (riskProbabilities [1, 2, 3, 4] 3 2).2 =
      100 * (((
        ([1, 2, 3, 4] : List ℚ).countP (fun x => decide (x < (2:ℚ)))) : ℚ) / 4) := by
  have h := risk_probabilities_spec [1, 2, 3, 4] 3 2 (by simp)
  simpa using h

/-! ## C2: representative scenarios are actually sampled -/

/-- Unfolding equation of `argminAbs` on a list with at least two
elements. -/
lemma argminAbs_cons_cons (t x y : ℚ) (ys : List ℚ) :
    argminAbs t (x :: y :: ys) =
      if absQ (x - t) ≤ absQ ((y :: ys).getD (argminAbs t (y :: ys)) 0 - t) then 0
      else argminAbs t (y :: ys) + 1 := rfl

lemma argminAbs_lt_length (t : ℚ) (xs : List ℚ) (h : xs ≠ []) :
    argminAbs t xs < xs.length := by
  induction xs with
  | nil => simp at h
  | cons x xs ih =>
    cases xs with
    | nil => simp [argminAbs]
    | cons y ys =>
      rw [argminAbs_cons_cons]
      by_cases hc : absQ (x - t) ≤ absQ ((y :: ys).getD (argminAbs t (y :: ys)) 0 - t)
      · rw [if_pos hc]
        simp
      · have := ih (by simp)
        rw [if_neg hc]
        simpa using Nat.succ_lt_succ this

lemma argminAbs_min (t : ℚ) (xs : List ℚ) (j : ℕ) (hj : j < xs.length) :
    absQ (xs.getD (argminAbs t xs) 0 - t) ≤ absQ (xs.getD j 0 - t) := by
  induction xs generalizing j with
  | nil => simp at hj
  | cons x xs ih =>
    cases xs with
    | nil =>
      have : j = 0 := by simpa using Nat.lt_one_iff.mp (by simpa using hj)
      subst this
      simp [argminAbs]
    | cons y ys =>
      rw [argminAbs_cons_cons]
      by_cases hc : absQ (x - t) ≤ absQ ((y :: ys).getD (argminAbs t (y :: ys)) 0 - t)
      · rw [if_pos hc]
        cases j with
        | zero => simp
        | succ j' =>
          rw [List.getD_cons_zero, List.getD_cons_succ]
          exact le_trans hc (ih j' (by simpa using Nat.lt_of_succ_lt_succ hj))
      · rw [if_neg hc]
        cases j with
        | zero =>
          rw [List.getD_cons_succ, List.getD_cons_zero]
          exact le_of_lt (not_le.mp hc)
        | succ j' =>
          rw [List.getD_cons_succ, List.getD_cons_succ]
          exact ih j' (by simpa using Nat.lt_of_succ_lt_succ hj)

/-- The six reporting targets of `extract_representative_scenarios`: the
percentile values of the configured ranks, then the mean. -/
def scenarioTargets (fb : List ℚ) : List ℚ :=
  [percentileLinear fb 5, percentileLinear fb 25, percentileLinear fb 50,
   percentileLinear fb 75, percentileLinear fb 95, meanQ fb]

/-- C2 -- Every reported `RepresentativeScenario` (P5, P25, P50, P75, P95
and the mean) is an actually sampled scenario: its parameter triple and
its final balance all come from one index minimizing
`|finalBalance[i] - target|` over the sampled final balances, so — when
the final balances arise from the trajectory map `F` of the sampled
triples — recomputing the trajectory with the reported triple reproduces
`saldo_final` exactly. -/
theorem extract_representative_scenarios_spec
    (fb caps mons rates : List ℚ) (F : ℚ → ℚ → ℚ → ℚ)
    (hne : fb ≠ [])
    (htraj : ∀ i, i < fb.length →
      fb.getD i 0 = F (caps.getD i 0) (mons.getD i 0) (rates.getD i 0)) :
    (extract_representative_scenarios fb caps mons rates).length = 6 ∧
    (∀ k, k < 6 →
      ∃ idx, idx < fb.length ∧
        (∀ j, j < fb.length →
          absQ (fb.getD idx 0 - (scenarioTargets fb).getD k 0) ≤
            absQ (fb.getD j 0 - (scenarioTargets fb).getD k 0)) ∧
        ((extract_representative_scenarios fb caps mons rates).getD k
            ⟨"", "", 0, 0, 0, 0, ""⟩).capital_inicial = caps.getD idx 0 ∧
        ((extract_representative_scenarios fb caps mons rates).getD k
            ⟨"", "", 0, 0, 0, 0, ""⟩).aporte_mensal = mons.getD idx 0 ∧
        ((extract_representative_scenarios fb caps mons rates).getD k
            ⟨"", "", 0, 0, 0, 0, ""⟩).rentabilidade_anual = rates.getD idx 0 ∧
        ((extract_representative_scenarios fb caps mons rates).getD k
            ⟨"", "", 0, 0, 0, 0, ""⟩).saldo_final = fb.getD idx 0 ∧
        ((extract_representative_scenarios fb caps mons rates).getD k
            ⟨"", "", 0, 0, 0, 0, ""⟩).saldo_final =
          F (((extract_representative_scenarios fb caps mons rates).getD k
                ⟨"", "", 0, 0, 0, 0, ""⟩).capital_inicial)
            (((extract_representative_scenarios fb caps mons rates).getD k
                ⟨"", "", 0, 0, 0, 0, ""⟩).aporte_mensal)
            (((extract_representative_scenarios fb caps mons rates).getD k
                ⟨"", "", 0, 0, 0, 0, ""⟩).rentabilidade_anual)) := by
  constructor
  · simp [extract_representative_scenarios, scenariosConfig]
  · intro k hk
    interval_cases k <;>
      exact ⟨_, argminAbs_lt_length _ fb hne,
        fun j hj => argminAbs_min _ fb j hj,
        rfl, rfl, rfl, rfl, htraj _ (argminAbs_lt_length _ fb hne)⟩

/-- Witness for C2 on concrete sampled data whose final balances are
reproduced by the projection `F c a r = c`. -/
theorem extract_representative_scenarios_witness :
    (extract_representative_scenarios [10, 20, 30] [10, 20, 30] [0, 0, 0] [0, 0, 0]).length = 6 ∧
    ∃ idx, idx < ([10, 20, 30] : List ℚ).length ∧
      ((extract_representative_scenarios [10, 20, 30] [10, 20, 30] [0, 0, 0] [0, 0, 0]).getD 0
          ⟨"", "", 0, 0, 0, 0, ""⟩).saldo_final = ([10, 20, 30] : List ℚ).getD idx 0 := by
  have h := extract_representative_scenarios_spec
    [10, 20, 30] [10, 20, 30] [0, 0, 0] [0, 0, 0]
    (fun c _ _ => c) (by simp)
    (by intro i hi; simp at hi; interval_cases i <;> rfl)
  obtain ⟨hlen, hall⟩ := h
  obtain ⟨idx, hidx, _, _, _, _, hsf, _⟩ := hall 0 (by norm_num)
  exact ⟨hlen, idx, hidx, hsf⟩

/-! ## C3: exhaustive, atomic validation -/

/-- C3 -- `validate_all` collects every violated constraint (one message
per invalid parameter, plus the period and simulation-count bounds), not
only the first: its error list is empty exactly when it reports validity,
and its length counts all violated constraints; engine construction
succeeds storing the inputs when valid and otherwise fails with the full
error list before any simulation work (the construction is pure and
returns only the error). -/
theorem monte_carlo_validation_spec (inp : MonteCarloInput) :
    ((inp.validate_all).1 = true ↔ (inp.validate_all).2 = []) ∧
    (inp.validate_all).2.length =
      ((if (inp.capital_inicial.validate).1 then 0 else 1) +
       (if (inp.aporte_mensal.validate).1 then 0 else 1) +
       (if (inp.rentabilidade_anual.validate).1 then 0 else 1) +
       (if inp.periodo_anos ≤ 0 then 1 else 0) +
       (if inp.n_simulations < 100 then 1 else 0) +
       (if inp.n_simulations > 100000 then 1 else 0)) ∧
    ((inp.validate_all).1 = true → mkMonteCarloEngine inp = Except.ok ⟨inp⟩) ∧
    ((inp.validate_all).1 = false → mkMonteCarloEngine inp = Except.error (inp.validate_all).2) := by
  refine ⟨?_, ?_, ?_, ?_⟩
  · simp [MonteCarloInput.validate_all, List.length_eq_zero]
  · simp only [MonteCarloInput.validate_all, List.foldr, List.length_append,
      apply_ite (List.length (α := String)), List.length_cons, List.length_nil]
    split_ifs <;> rfl
  · intro h
    simp [mkMonteCarloEngine, h]
  · intro h
    simp [mkMonteCarloEngine, h]

/-- An input violating five constraints at once, for the C3 witness. -/
def invalidSampleInput : MonteCarloInput :=
  { capital_inicial := ⟨none, none, none⟩
    aporte_mensal := ⟨some 1, some 2, none⟩
    rentabilidade_anual := ⟨some 3, none, none⟩
    periodo_anos := 0
    meta := 0
    n_simulations := 50 }

/-- Witness for C3: the five simultaneous violations are all collected and
construction fails with the full list. -/
theorem monte_carlo_validation_witness :
    mkMonteCarloEngine invalidSampleInput =
      Except.error (invalidSampleInput.validate_all).2 ∧
    (invalidSampleInput.validate_all).2.length = 5 :=
  ⟨(monte_carlo_validation_spec invalidSampleInput).2.2.2 (by decide), by decide⟩

/-! ## C1: insolvency dynamics of the two deterministic event paths -/

lemma simEvState_insolvent_bal (C mr a : ℚ) (ev : ℕ → ℚ × ℚ) :
    ∀ t, (simEvState C mr a ev t).is_insolvent = true →
      (simEvState C mr a ev t).bal = 0 := by
  intro t
  induction t with
  | zero => simp [simEvState]
  | succ t ih =>
    simp only [simEvState, simEvStep]
    split_ifs <;> simp_all

lemma simEvState_insolvent_mono (C mr a : ℚ) (ev : ℕ → ℚ × ℚ) :
    ∀ t, (simEvState C mr a ev t).is_insolvent = true →
      (simEvState C mr a ev (t + 1)).is_insolvent = true := by
  intro t h
  simp only [simEvState, simEvStep]
  split_ifs
  simp_all

lemma simEvState_insolvent_ge (C mr a : ℚ) (ev : ℕ → ℚ × ℚ) {k t : ℕ}
    (hk : (simEvState C mr a ev k).is_insolvent = true) (hkt : k ≤ t) :
    (simEvState C mr a ev t).is_insolvent = true := by
  induction t with
  | zero =>
    have : k = 0 := Nat.le_zero.mp hkt
    subst this; exact hk
  | succ t ih =>
    rcases Nat.le_succ_iff.mp hkt with h | h
    · exact simEvState_insolvent_mono C mr a ev t (ih h)
    · subst h; exact hk

lemma simEvStep_of_insolvent (mr a : ℚ) (ev : ℕ → ℚ × ℚ) (m : ℕ)
    (s : SimEvState) (h : s.is_insolvent = true) :
    simEvStep mr a ev m s = { s with bal := 0 } := by
  simp [simEvStep, h]

lemma simEvStep_of_solvent (mr a : ℚ) (ev : ℕ → ℚ × ℚ) (m : ℕ)
    (s : SimEvState) (h : s.is_insolvent = false) :
    simEvStep mr a ev m s =
      if 0 < (ev m).2 then
        (if s.bal * (1 + mr) + a + (ev m).1 < (ev m).2 then
          ⟨0, s.insolvencies ++
            [⟨m, (m : ℚ) / 12, s.bal * (1 + mr) + a + (ev m).1, (ev m).2⟩], true⟩
        else { s with bal := s.bal * (1 + mr) + a + (ev m).1 - (ev m).2 })
      else { s with bal := s.bal * (1 + mr) + a + (ev m).1 } := by
  simp [simEvStep, h]

/-- Once-and-only-once recording invariant of `apply_events_to_simulation`:
either no insolvency has been seen (empty record, flag down) or exactly
one event is recorded, at the month where the flag first went up. -/
lemma simEvState_record (C mr a : ℚ) (ev : ℕ → ℚ × ℚ) :
    ∀ t, ((simEvState C mr a ev t).is_insolvent = false ∧
          (simEvState C mr a ev t).insolvencies = []) ∨
      ((simEvState C mr a ev t).is_insolvent = true ∧
        ∃ e : InsolvencyEvent,
          (simEvState C mr a ev t).insolvencies = [e] ∧
          1 ≤ e.month ∧ e.month ≤ t ∧
          (simEvState C mr a ev (e.month - 1)).is_insolvent = false ∧
          (simEvState C mr a ev e.month).is_insolvent = true) := by
  intro t
  induction t with
  | zero => exact Or.inl ⟨rfl, rfl⟩
  | succ t ih =>
    have hstep : simEvState C mr a ev (t + 1) =
        simEvStep mr a ev (t + 1) (simEvState C mr a ev t) := rfl
    rcases ih with ⟨hflag, hrec⟩ | ⟨hflag, e, hrec, h1, h2, h3, h4⟩
    · rw [hstep, simEvStep_of_solvent mr a ev (t + 1) _ hflag]
      by_cases hw : 0 < (ev (t + 1)).2
      · rw [if_pos hw]
        by_cases hb : (simEvState C mr a ev t).bal * (1 + mr) + a + (ev (t + 1)).1 <
            (ev (t + 1)).2
        · rw [if_pos hb]
          refine Or.inr ⟨rfl, ⟨t + 1, ((t + 1 : ℕ) : ℚ) / 12,
            (simEvState C mr a ev t).bal * (1 + mr) + a + (ev (t + 1)).1,
            (ev (t + 1)).2⟩, ?_, ?_, le_refl _, ?_, ?_⟩
          · simp [hrec]
          · exact Nat.succ_le_succ (Nat.zero_le t)
          · simpa using hflag
          · rw [hstep, simEvStep_of_solvent mr a ev (t + 1) _ hflag,
              if_pos hw, if_pos hb]
        · rw [if_neg hb]
          exact Or.inl ⟨hflag, hrec⟩
      · rw [if_neg hw]
        exact Or.inl ⟨hflag, hrec⟩
    · rw [hstep, simEvStep_of_insolvent mr a ev (t + 1) _ hflag]
      exact Or.inr ⟨hflag, e, hrec, h1, Nat.le_succ_of_le h2, h3, h4⟩

lemma calcEvStep_im_cases (mr a : ℚ) (ev : ℕ → ℚ × ℚ) (m : ℕ) (s : CalcEvState) :
    (calcEvStep mr a ev m s).insolvency_month = s.insolvency_month ∨
    (s.insolvency_month = none ∧
      (calcEvStep mr a ev m s).insolvency_month = some m ∧
      (calcEvStep mr a ev m s).bal = 0) := by
  rcases hs : s.insolvency_month with _ | j
  · simp only [calcEvStep]
    split_ifs <;> simp_all
  · simp only [calcEvStep]
    split_ifs <;> simp_all

/-- The insolvency month recorded by `_calculate_with_events` is the first
month at which a shortfall (or negative clamp) fired: at that month the
stored balance is zero and the record was still empty the month before. -/
lemma calcEvState_some_props (C mr a : ℚ) (ev : ℕ → ℚ × ℚ) :
    ∀ t k, (calcEvState C mr a ev t).insolvency_month = some k →
      1 ≤ k ∧ k ≤ t ∧
      (calcEvState C mr a ev k).insolvency_month = some k ∧
      (calcEvState C mr a ev (k - 1)).insolvency_month = none ∧
      (calcEvState C mr a ev k).bal = 0 := by
  intro t
  induction t with
  | zero => intro k hk; simp [calcEvState] at hk
  | succ t ih =>
    intro k hk
    rcases calcEvStep_im_cases mr a ev (t + 1) (calcEvState C mr a ev t) with
      heq | ⟨hnone, hm, hbal⟩
    · rw [show (calcEvState C mr a ev (t + 1)) =
          calcEvStep mr a ev (t + 1) (calcEvState C mr a ev t) from rfl] at hk
      rw [heq] at hk
      obtain ⟨g1, g2, g3, g4, g5⟩ := ih k hk
      exact ⟨g1, Nat.le_succ_of_le g2, g3, g4, g5⟩
    · rw [show (calcEvState C mr a ev (t + 1)) =
          calcEvStep mr a ev (t + 1) (calcEvState C mr a ev t) from rfl] at hk
      rw [hm] at hk
      obtain rfl : k = t + 1 := by simpa using hk.symm
      exact ⟨by omega, le_refl _, hm, by simpa using hnone, hbal⟩

/-- The event map used by the C1 counterexample and witness: a single
withdrawal of 1000 at month 1. -/
def evC1 : ℕ → ℚ × ℚ := fun m => if m = 1 then (0, 1000) else (0, 0)

/--
Counterexample to C1 as stated: in
`MonteCarloEngine._calculate_with_events` (initial 0, contribution 100,
monthly rate 0, the single unsatisfiable withdrawal of 1000 at month 1),
the first shortfall is recorded at month 1 — yet the balance at month 2
is 100, revived by the regular contribution, not 0.
-/
theorem insolvency_absorbing_counterexample :
    (calculate_with_events 0 100 0 evC1 3).2 = some 1 ∧
    (calculate_with_events 0 100 0 evC1 3).1.getD 2 0 = 100 := by
  constructor <;>
    norm_num [calculate_with_events, calcEvState, calcEvStep, evC1,
      List.range_succ]

/-- C1 (amended) -- In `apply_events_to_simulation` insolvency is terminal
and absorbing: at most one shortfall is ever recorded, and from the
recorded month on every stored balance is zero, no later deposit or
contribution reviving the trajectory. In
`MonteCarloEngine._calculate_with_events` only the first shortfall month
is recorded and the balance is zeroed at that month, but the state is not
absorbing (later contributions revive it, as the counterexample shows). -/
theorem insolvency_dynamics_spec (C a mr : ℚ) (ev : ℕ → ℚ × ℚ) (months : ℕ) :
    ((apply_events_to_simulation C a mr ev months).2.length ≤ 1) ∧
    (∀ e, (apply_events_to_simulation C a mr ev months).2 = [e] →
      ∀ t, e.month ≤ t → t ≤ months →
        (apply_events_to_simulation C a mr ev months).1.getD t 1 = 0) ∧
    (∀ k, (calculate_with_events C a mr ev months).2 = some k →
      1 ≤ k ∧ k ≤ months ∧
      (calculate_with_events C a mr ev months).1.getD k 1 = 0 ∧
      (calcEvState C mr a ev (k - 1)).insolvency_month = none) := by
  refine ⟨?_, ?_, ?_⟩
  · rcases simEvState_record C mr a ev months with ⟨_, hrec⟩ | ⟨_, e, hrec, _⟩ <;>
      simp [apply_events_to_simulation, hrec]
  · intro e hrec t het htm
    rcases simEvState_record C mr a ev months with ⟨_, hempty⟩ | ⟨_, e', he', _, _, _, hflag⟩
    · simp [apply_events_to_simulation, hempty] at hrec
    · have he : e' = e := by
        simp [apply_events_to_simulation, he'] at hrec
        exact hrec
      subst he
      have hins : (simEvState C mr a ev t).is_insolvent = true :=
        simEvState_insolvent_ge C mr a ev hflag het
      have hbal := simEvState_insolvent_bal C mr a ev t hins
      have htlen : t < months + 1 := by omega
      simp [apply_events_to_simulation, List.getD_eq_getElem?_getD,
        List.getElem?_map, List.getElem?_range htlen]
      exact hbal
  · intro k hk
    have hk' : (calcEvState C mr a ev months).insolvency_month = some k := hk
    obtain ⟨g1, g2, g3, g4, g5⟩ := calcEvState_some_props C mr a ev months k hk'
    refine ⟨g1, g2, ?_, g4⟩
    have hklen : k < months + 1 := by omega
    simp [calculate_with_events, List.getD_eq_getElem?_getD,
      List.getElem?_map, List.getElem?_range hklen]
    exact g5

/-- Witness for C1 (amended) at the concrete shortfall scenario. -/
theorem insolvency_dynamics_witness :
    (apply_events_to_simulation 0 100 0 evC1 3).1.getD 2 1 = 0 ∧
    (calculate_with_events 0 100 0 evC1 3).1.getD 1 1 = 0 := by
  have h := insolvency_dynamics_spec 0 100 0 evC1 3
  refine ⟨h.2.1 ⟨1, 1 / 12, 100, 1000⟩ ?_ 2 (by norm_num) (by norm_num),
    (h.2.2 1 ?_).2.2.1⟩
  · norm_num [apply_events_to_simulation, simEvState, simEvStep, evC1]
  · norm_num [calculate_with_events, calcEvState, calcEvStep, evC1]

/-! ## C4: non-negativity of sampled parameters entering the recurrence -/

lemma sample_of_not_probabilistic (pr : ParameterRange)
    (h : pr.is_probabilistic = false) (noise : ℕ → ℚ) (n : ℕ) :
    pr.sample noise n =
      List.replicate n ((pr.get_deterministic_value).getD 0) := by
  simp [ParameterRange.sample, h, List.map_const']

lemma sample_parameter_of_no_range (pr : Calculation.ParameterRange)
    (h : pr.is_range_defined = false) (noise : ℕ → ℚ) (n : ℕ) :
    pr.sample_parameter noise n =
      List.replicate n pr.get_deterministic_value := by
  simp [Calculation.ParameterRange.sample_parameter, h, List.map_const']

/-- A valid engine input whose (deterministic) annual rate is negative. -/
def negRateInput : MonteCarloInput :=
  { capital_inicial := ⟨none, some 1000, none⟩
    aporte_mensal := ⟨none, some 100, none⟩
    rentabilidade_anual := ⟨none, some (-5), none⟩
    periodo_anos := 1
    meta := 0
    n_simulations := 100 }

/-- All-zero noise stream. -/
def zeroNoise : ℕ → ℚ := fun _ => 0

/-- Empty consolidated events. -/
def zeroEvents : ℕ → ℚ × ℚ := fun _ => (0, 0)

/--
Counterexample to C4 as stated: `negRateInput` passes validation, yet in
`MonteCarloEngine._calculate_monte_carlo_with_events` the sampled annual
rates entering the compounding recurrence are all `-5 < 0` — unlike
`run_monte_carlo_simulation`, this path never clamps the sampled arrays.
-/
theorem sampled_nonneg_counterexample :
    (negRateInput.validate_all).1 = true ∧
    (calculate_monte_carlo_with_events negRateInput zeroNoise zeroNoise zeroNoise
        (fun r => r) zeroEvents).2.2.2.getD 0 0 = -5 := by
  constructor
  · decide
  · have hs : (calculate_monte_carlo_with_events negRateInput zeroNoise zeroNoise
        zeroNoise (fun r => r) zeroEvents).2.2.2 =
        negRateInput.rentabilidade_anual.sample zeroNoise 100 := rfl
    rw [hs, sample_of_not_probabilistic _ (by decide) _ _]
    norm_num [negRateInput, ParameterRange.get_deterministic_value,
      show (100 : ℕ) = 99 + 1 from rfl, List.replicate_succ]

/-- C4 (amended) -- In `run_monte_carlo_simulation` (calculation.py) every
element of the three sampled arrays is clamped non-negative before the
compounding recurrence. In
`MonteCarloEngine._calculate_monte_carlo_with_events` (monte_carlo.py)
the sampled arrays enter the recurrence exactly as sampled (no clamp,
and negative rates are possible, as the counterexample shows); instead
every balance cell from month 1 on is clamped non-negative. -/
theorem sampling_clamp_spec :
    (∀ (params : Calculation.SimulationParameters) (nC nA nR : ℕ → ℚ),
      (∀ x ∈ (Calculation.sampledMCParams params nC nA nR).1, 0 ≤ x) ∧
      (∀ x ∈ (Calculation.sampledMCParams params nC nA nR).2.1, 0 ≤ x) ∧
      (∀ x ∈ (Calculation.sampledMCParams params nC nA nR).2.2, 0 ≤ x)) ∧
    (∀ (inp : MonteCarloInput) (nC nA nR : ℕ → ℚ) (rateToM : ℚ → ℚ)
        (ev : ℕ → ℚ × ℚ),
      (calculate_monte_carlo_with_events inp nC nA nR rateToM ev).2.1 =
        inp.capital_inicial.sample nC inp.n_simulations.toNat ∧
      (calculate_monte_carlo_with_events inp nC nA nR rateToM ev).2.2.1 =
        inp.aporte_mensal.sample nA inp.n_simulations.toNat ∧
      (calculate_monte_carlo_with_events inp nC nA nR rateToM ev).2.2.2 =
        inp.rentabilidade_anual.sample nR inp.n_simulations.toNat) ∧
    (∀ (C a mrate : ℚ) (ev : ℕ → ℚ × ℚ) (m : ℕ), 0 < m →
      0 ≤ mcRowBal C a mrate ev m) := by
  refine ⟨?_, ?_, ?_⟩
  · intro params nC nA nR
    refine ⟨?_, ?_, ?_⟩ <;>
    · intro x hx
      simp only [Calculation.sampledMCParams, List.mem_map] at hx
      obtain ⟨y, _, rfl⟩ := hx
      exact le_max_right y 0
  · intro inp nC nA nR rateToM ev
    exact ⟨rfl, rfl, rfl⟩
  · intro C a mrate ev m hm
    cases m with
    | zero => exact absurd hm (lt_irrefl 0)
    | succ m' => exact le_max_left 0 _

/-- Parameters with a negative deterministic initial capital, for the C4
witness: the calculation.py path clamps it to 0 before compounding. -/
def negCapParams : Calculation.SimulationParameters :=
  { initial_amount := ⟨none, some (-7), none⟩
    monthly_contribution := ⟨none, some 100, none⟩
    annual_rate := ⟨none, some 10, none⟩
    years := 1
    goal_amount := 0
    num_simulations := 100 }

/-- Witness for C4 (amended) at concrete inputs. -/
theorem sampling_clamp_witness :
    (0:ℚ) ≤ max (-7) 0 ∧ 0 ≤ mcRowBal 5 3 (1/2) zeroEvents 1 := by
  constructor
  · refine (sampling_clamp_spec.1 negCapParams zeroNoise zeroNoise zeroNoise).1
      (max (-7) 0) ?_
    have hs : (Calculation.sampledMCParams negCapParams zeroNoise zeroNoise
        zeroNoise).1 =
        (negCapParams.initial_amount.sample_parameter zeroNoise 100).map
          (fun x => max x 0) := rfl
    rw [hs, sample_parameter_of_no_range _ (by decide) _ _, List.map_replicate]
    have h7 : negCapParams.initial_amount.get_deterministic_value = -7 := rfl
    rw [h7]
    exact List.mem_replicate.mpr ⟨by norm_num, rfl⟩
  · exact sampling_clamp_spec.2.2 5 3 (1/2) zeroEvents 1 (by norm_num)

/-! ## C9: the implicit-rate bisection -/

lemma bisectGo_mem (sim : ℚ → ℚ) (target tol : ℚ) :
    ∀ (k : ℕ) (lo hi : ℚ), lo ≤ hi →
      lo ≤ bisectGo sim target tol k lo hi ∧ bisectGo sim target tol k lo hi ≤ hi := by
  intro k
  induction k with
  | zero =>
    intro lo hi hle
    constructor <;> (simp only [bisectGo]; linarith)
  | succ k ih =>
    intro lo hi hle
    simp only [bisectGo]
    split_ifs with h1 h2
    · constructor <;> linarith
    · have hmid : lo ≤ (lo + hi) / 2 := by linarith
      have h := ih ((lo + hi) / 2) hi (by linarith)
      exact ⟨le_trans hmid h.1, h.2⟩
    · have hmid : (lo + hi) / 2 ≤ hi := by linarith
      have h := ih lo ((lo + hi) / 2) (by linarith)
      exact ⟨h.1, le_trans h.2 hmid⟩

lemma bisectGo_succ (sim : ℚ → ℚ) (target tol : ℚ) (k : ℕ) (lo hi : ℚ) :
    bisectGo sim target tol (k + 1) lo hi =
      if absQ (sim ((lo + hi) / 2) - target) < tol then (lo + hi) / 2
      else if sim ((lo + hi) / 2) < target then
        bisectGo sim target tol k ((lo + hi) / 2) hi
      else bisectGo sim target tol k lo ((lo + hi) / 2) := rfl

lemma bisectBracket_succ (sim : ℚ → ℚ) (target : ℚ) (k : ℕ) (lo hi : ℚ) :
    bisectBracket sim target (k + 1) (lo, hi) =
      if sim ((lo + hi) / 2) < target then
        bisectBracket sim target k ((lo + hi) / 2, hi)
      else bisectBracket sim target k (lo, (lo + hi) / 2) := rfl

lemma bisectGo_exit_or (sim : ℚ → ℚ) (target tol : ℚ) :
    ∀ (k : ℕ) (lo hi : ℚ),
      absQ (sim (bisectGo sim target tol k lo hi) - target) < tol ∨
      bisectGo sim target tol k lo hi =
        ((bisectBracket sim target k (lo, hi)).1 +
          (bisectBracket sim target k (lo, hi)).2) / 2 := by
  intro k
  induction k with
  | zero => intro lo hi; exact Or.inr rfl
  | succ k ih =>
    intro lo hi
    rw [bisectGo_succ, bisectBracket_succ]
    split_ifs with h1 h2 h3
    · exact Or.inl h1
    · exact Or.inl h1
    · exact ih ((lo + hi) / 2) hi
    · exact ih lo ((lo + hi) / 2)

lemma bisectGo_converges (sim : ℚ → ℚ) (target tol w : ℚ)
    (hmono : ∀ x y : ℚ, x ≤ y → sim x ≤ sim y)
    (hmod : ∀ x y : ℚ, -30 ≤ x → y ≤ 50 → x ≤ y → y - x ≤ w → sim y - sim x < tol) :
    ∀ (k : ℕ) (lo hi : ℚ), -30 ≤ lo → hi ≤ 50 → lo ≤ hi →
      sim lo ≤ target → target ≤ sim hi → hi - lo ≤ w * 2 ^ k →
      absQ (sim (bisectGo sim target tol k lo hi) - target) < tol := by
  intro k
  induction k with
  | zero =>
    intro lo hi hlo hhi hle hslo hshi hw
    simp only [bisectGo, absQ]
    have hm1 : lo ≤ (lo + hi) / 2 := by linarith
    have hm2 : (lo + hi) / 2 ≤ hi := by linarith
    have hs1 : sim lo ≤ sim ((lo + hi) / 2) := hmono _ _ hm1
    have hs2 : sim ((lo + hi) / 2) ≤ sim hi := hmono _ _ hm2
    have hgap : sim hi - sim lo < tol := by
      refine hmod lo hi hlo hhi hle ?_
      simpa using hw
    rw [abs_lt]
    constructor <;> linarith
  | succ k ih =>
    intro lo hi hlo hhi hle hslo hshi hw
    have h2k : (2 : ℚ) ^ (k + 1) = 2 * 2 ^ k := by ring
    simp only [bisectGo]
    split_ifs with h1 h2
    · exact h1
    · refine ih ((lo + hi) / 2) hi (by linarith) hhi (by linarith)
        (le_of_lt h2) hshi ?_
      rw [h2k] at hw
      linarith
    · refine ih lo ((lo + hi) / 2) hlo (by linarith) (by linarith)
        hslo (not_lt.mp h2) ?_
      rw [h2k] at hw
      linarith

/-- C9 -- `find_implicit_rate` bisects the annual rate in `[-30, 50]`
against the pure-annuity recurrence and never fails: the result always
lies in `[-30, 50]`; either it was returned early with its simulated
balance within tolerance of the target, or it is the midpoint of the
final bracket after all iterations; and when the recurrence is monotone
with variation below the tolerance at the final bracket width (the
embedded form of the continuity of the float computation), a target
produced by any rate inside `[-30, 50]` is recovered within tolerance. -/
theorem find_implicit_rate_spec (gf : ℚ → ℚ) (C a : ℚ) (years : ℕ)
    (target tol : ℚ) (maxIter : ℕ) :
    (-30 ≤ find_implicit_rate (simulate_deterministic gf C a years) target tol maxIter ∧
      find_implicit_rate (simulate_deterministic gf C a years) target tol maxIter ≤ 50) ∧
    (absQ (simulate_deterministic gf C a years
        (find_implicit_rate (simulate_deterministic gf C a years) target tol maxIter)
        - target) < tol ∨
      find_implicit_rate (simulate_deterministic gf C a years) target tol maxIter =
        ((bisectBracket (simulate_deterministic gf C a years) target maxIter (-30, 50)).1 +
          (bisectBracket (simulate_deterministic gf C a years) target maxIter (-30, 50)).2) / 2) ∧
    ((∀ x y : ℚ, x ≤ y →
        simulate_deterministic gf C a years x ≤ simulate_deterministic gf C a years y) →
     (∀ x y : ℚ, -30 ≤ x → y ≤ 50 → x ≤ y → y - x ≤ 80 / 2 ^ maxIter →
        simulate_deterministic gf C a years y - simulate_deterministic gf C a years x < tol) →
     (∃ r, -30 ≤ r ∧ r ≤ 50 ∧ simulate_deterministic gf C a years r = target) →
     absQ (simulate_deterministic gf C a years
        (find_implicit_rate (simulate_deterministic gf C a years) target tol maxIter)
        - target) < tol) := by
  refine ⟨?_, ?_, ?_⟩
  · exact bisectGo_mem (simulate_deterministic gf C a years) target tol maxIter
      (-30) 50 (by norm_num)
  · exact bisectGo_exit_or (simulate_deterministic gf C a years) target tol maxIter
      (-30) 50
  · rintro hm hmod ⟨r, hr1, hr2, hr3⟩
    have hpow : (0 : ℚ) < 2 ^ maxIter := by positivity
    refine bisectGo_converges (simulate_deterministic gf C a years) target tol
      (80 / 2 ^ maxIter) hm hmod maxIter (-30) 50 (by norm_num) (by norm_num)
      (by norm_num) ?_ ?_ ?_
    · rw [← hr3]
      exact hm _ _ hr1
    · rw [← hr3]
      exact hm _ _ hr2
    · rw [div_mul_cancel₀]
      · norm_num
      · exact ne_of_gt hpow

/-- The affine growth map used by the C9 witness (a simple stand-in for
the 12th-root conversion). -/
def gfLin : ℚ → ℚ := fun r => 1 + r / 1200

lemma annuityIter_zero (g : ℚ) (n : ℕ) : annuityIter g 0 n 0 = 0 := by
  induction n with
  | zero => rfl
  | succ n ih => simp [annuityIter, ih]

lemma simulate_deterministic_zero (gf : ℚ → ℚ) (years : ℕ) (r : ℚ) :
    simulate_deterministic gf 0 0 years r = 0 := by
  simp only [simulate_deterministic]
  exact annuityIter_zero _ _

/-- Witness for C9: on the zero-annuity instance the bisection recovers a
rate reproducing the target within the tolerance. -/
theorem find_implicit_rate_witness :
    absQ (simulate_deterministic gfLin 0 0 1
      (find_implicit_rate (simulate_deterministic gfLin 0 0 1) 0 1000 100) - 0)
      < 1000 := by
  refine (find_implicit_rate_spec gfLin 0 0 1 0 1000 100).2.2 ?_ ?_
    ⟨0, by norm_num, by norm_num, by rw [simulate_deterministic_zero]⟩
  · intro x y _
    rw [simulate_deterministic_zero, simulate_deterministic_zero]
  · intro x y _ _ _ _
    rw [simulate_deterministic_zero, simulate_deterministic_zero]
    norm_num

/-! ## C10: the run degenerates to the deterministic series when no
parameter is probabilistic -/

/-- C10 -- When no parameter of the input is probabilistic,
`MonteCarloEngine.run` reports `has_monte_carlo = false`, every aggregated
monthly series (mean, min, max, P5, P10, P90, P95, and the median and
mode surfaced through the yearly projection) equals the deterministic
balance series element-wise, the three final-balance aggregates all equal
the deterministic final balance, the representative-scenario list is
empty and the four sampled arrays are absent. -/
theorem engineRun_deterministic_spec (inp : MonteCarloInput)
    (evList : List (ℕ × ℚ × ℚ)) (yearly_ev : ℕ → ℚ × ℚ)
    (noiseC noiseA noiseR : ℕ → ℚ) (rateToM : ℚ → ℚ)
    (h : inp.has_probabilistic_params = false) :
    (engineRun inp evList yearly_ev noiseC noiseA noiseR rateToM).has_monte_carlo = false ∧
    (engineRun inp evList yearly_ev noiseC noiseA noiseR rateToM).balances_mean =
      (engineRun inp evList yearly_ev noiseC noiseA noiseR rateToM).balances_deterministic ∧
    (engineRun inp evList yearly_ev noiseC noiseA noiseR rateToM).balances_min =
      (engineRun inp evList yearly_ev noiseC noiseA noiseR rateToM).balances_deterministic ∧
    (engineRun inp evList yearly_ev noiseC noiseA noiseR rateToM).balances_max =
      (engineRun inp evList yearly_ev noiseC noiseA noiseR rateToM).balances_deterministic ∧
    (engineRun inp evList yearly_ev noiseC noiseA noiseR rateToM).balances_p5 =
      (engineRun inp evList yearly_ev noiseC noiseA noiseR rateToM).balances_deterministic ∧
    (engineRun inp evList yearly_ev noiseC noiseA noiseR rateToM).balances_p10 =
      (engineRun inp evList yearly_ev noiseC noiseA noiseR rateToM).balances_deterministic ∧
    (engineRun inp evList yearly_ev noiseC noiseA noiseR rateToM).balances_p90 =
      (engineRun inp evList yearly_ev noiseC noiseA noiseR rateToM).balances_deterministic ∧
    (engineRun inp evList yearly_ev noiseC noiseA noiseR rateToM).balances_p95 =
      (engineRun inp evList yearly_ev noiseC noiseA noiseR rateToM).balances_deterministic ∧
    (engineRun inp evList yearly_ev noiseC noiseA noiseR rateToM).final_balance_mean =
      (engineRun inp evList yearly_ev noiseC noiseA noiseR rateToM).final_balance_det ∧
    (engineRun inp evList yearly_ev noiseC noiseA noiseR rateToM).final_balance_min =
      (engineRun inp evList yearly_ev noiseC noiseA noiseR rateToM).final_balance_det ∧
    (engineRun inp evList yearly_ev noiseC noiseA noiseR rateToM).final_balance_max =
      (engineRun inp evList yearly_ev noiseC noiseA noiseR rateToM).final_balance_det ∧
    (engineRun inp evList yearly_ev noiseC noiseA noiseR rateToM).representative_scenarios = [] ∧
    (engineRun inp evList yearly_ev noiseC noiseA noiseR rateToM).sampled_capitals = none ∧
    (engineRun inp evList yearly_ev noiseC noiseA noiseR rateToM).sampled_monthlies = none ∧
    (engineRun inp evList yearly_ev noiseC noiseA noiseR rateToM).sampled_rates = none ∧
    (engineRun inp evList yearly_ev noiseC noiseA noiseR rateToM).sampled_final_balances = none ∧
    (∀ row ∈ (engineRun inp evList yearly_ev noiseC noiseA noiseR rateToM).yearly_projection,
      row.balance_median =
        (engineRun inp evList yearly_ev noiseC noiseA noiseR rateToM).balances_deterministic.getD
          (row.year * 12) 0 ∧
      row.balance_mode =
        (engineRun inp evList yearly_ev noiseC noiseA noiseR rateToM).balances_deterministic.getD
          (row.year * 12) 0) := by
  refine ⟨?_, ?_, ?_, ?_, ?_, ?_, ?_, ?_, ?_, ?_, ?_, ?_, ?_, ?_, ?_, ?_, ?_⟩ <;>
    simp only [engineRun, h, Bool.false_eq_true, if_false, if_neg]
  intro row hrow
  simp only [List.mem_map] at hrow
  obtain ⟨y, hy, rfl⟩ := hrow
  exact ⟨rfl, rfl⟩

/-- A fully deterministic input for the C10 witness. -/
def pureDetInput : MonteCarloInput :=
  { capital_inicial := ⟨none, some 1000, none⟩
    aporte_mensal := ⟨none, some 100, none⟩
    rentabilidade_anual := ⟨none, some 10, none⟩
    periodo_anos := 1
    meta := 0
    n_simulations := 100 }

/-- Witness for C10 at a concrete deterministic input. -/
theorem engineRun_deterministic_witness :
    (engineRun pureDetInput [] (fun _ => (0, 0)) zeroNoise zeroNoise zeroNoise
        (fun _ => 0)).has_monte_carlo = false ∧
    (engineRun pureDetInput [] (fun _ => (0, 0)) zeroNoise zeroNoise zeroNoise
        (fun _ => 0)).balances_mean =
      (engineRun pureDetInput [] (fun _ => (0, 0)) zeroNoise zeroNoise zeroNoise
        (fun _ => 0)).balances_deterministic ∧
    (engineRun pureDetInput [] (fun _ => (0, 0)) zeroNoise zeroNoise zeroNoise
        (fun _ => 0)).representative_scenarios = [] :=
  have h := engineRun_deterministic_spec pureDetInput [] (fun _ => (0, 0))
    zeroNoise zeroNoise zeroNoise (fun _ => 0) (by decide)
  ⟨h.1, h.2.1, h.2.2.2.2.2.2.2.2.2.2.2.1⟩

end PyInvest
